import Mathlib

/-!
Verification of the forecast-leverage-sdk natural-language specification
against the TypeScript source.  The source file src/src/errors.ts contains
three concatenated revisions of the same `ForecastLeverageSDK` class; line
ranges below name the revision a definition is translated from.

Modelling conventions:
* JavaScript `number` arithmetic is idealised: field arithmetic is modelled
  over `ℚ` (exact), and `Math.log`-based expressions over `ℝ` with
  `Real.log`.  Every comparison settled below is sign- or margin-robust, so
  the idealisation is faithful for the claims at hand.
* Asynchronous external calls (order book, chain transactions, balances)
  are modelled by explicit oracle functions passed as arguments; a loop
  body's outcome at iteration `i` is the oracle's value at `i`.
* Error classes `ValidationError` / `PolymarketError` / `ProtocolError`
  (src/src/errors.ts lines 92-111) become the `SdkError` inductive; raw
  (unwrapped) JavaScript errors are the `.other` constructor.  Template
  strings that interpolate numeric values keep their fixed prefix text.
-/

namespace ForecastSDK

/-- Error taxonomy of the SDK (classes ValidationError, PolymarketError,
ProtocolError in src/src/errors.ts; `.other` stands for a raw Error that no
SDK class wraps). -/
inductive SdkError where
  | validation (msg : String)
  | polymarket (msg : String)
  | protocol (msg : String)
  | other (msg : String)
deriving DecidableEq, Repr

/-- Discriminator: is the error a ProtocolError? -/
def SdkError.isProtocol : SdkError → Bool
  | .protocol _ => true
  | _ => false

/-- Discriminator on `Except` results: true when the computation errored. -/
def resultIsError {ε α : Type} : Except ε α → Bool
  | .error _ => true
  | .ok _ => false

/-- Seconds per year, the YEAR_SECONDS constant 365 * 24 * 3600 (line 420). -/
def yearSeconds : ℚ := 365 * 24 * 3600

/-- The safe runway: `((1 - F) / (F * R)) * YEAR_SECONDS * 0.95`
(lines 421-422 of validateRunway, first revision). -/
def safeRunway (F R : ℚ) : ℚ :=
  ((1 - F) / (F * R)) * yearSeconds * (95 / 100)

/-- Fixed text of the runway ValidationError (lines 428-432); the source
interpolates the term and runway hour counts into this message, the numeric
interpolation is elided here. -/
def runwayMsg : String := "Term exceeds safe runway"

/-- validateRunway (first revision, lines 417-434): returns immediately when
R = 0, otherwise rejects with a ValidationError when
termSeconds >= safeRunway. -/
def validateRunway (F R termSeconds : ℚ) : Except SdkError Unit :=
  if R = 0 then .ok ()
  else if safeRunway F R ≤ termSeconds then
    .error (.validation runwayMsg)
  else .ok ()

/-- The loop-count formula `ceil(log eps / log F)` of the spec (section 4.1)
and of testLoopCount in test/simulation_validation.test.ts (with eps = 0.1). -/
noncomputable def loopsFor (eps F : ℝ) : ℤ := ⌈Real.log eps / Real.log F⌉

/-- Loop count of the first revision (line 458-461):
`Math.min(Math.ceil(Math.log(0.1) / Math.log(F)), 10)`. -/
noncomputable def loopsV1 (F : ℝ) : ℤ := min (loopsFor (0.1) F) 10

/-- Loop count of the second revision (line 1301), exactly as written in the
source: `Math.ceil(-Math.log(0.01) / Math.log(F))` — note the leading minus
sign on `Math.log(0.01)`. -/
noncomputable def loopsV2code (F : ℝ) : ℤ := ⌈(-Real.log (0.01)) / Real.log F⌉

/-- Geometric-series multiplier `(1 - F^n) / (1 - F)` reached after n loop
iterations (test/simulation_validation.test.ts, testLoopCount). -/
noncomputable def geomMult (F : ℝ) (n : ℕ) : ℝ := (1 - F ^ n) / (1 - F)

/-- Derived leverage parameters (interface LeverageParams, lines 813-819). -/
structure LeverageParamsL where
  F : ℚ
  R : ℚ
  loops : ℤ
  maxLeverage : ℚ
  tokenId : ℕ
deriving Repr

/-- calculateLeverageParams of the second revision (lines 1279-1315): the
protocol quote is abstracted into the inputs F and R (already divided by
1e18); validates F ∈ (0,1) with a ValidationError, performs NO runway
check, and computes `loops` by `loopsV2code`.  `termSeconds` is available
(params.timeframeSeconds) but unused, as in the source. -/
noncomputable def calculateLeverageParamsV2 (F R termSeconds : ℚ) (tokenId : ℕ) :
    Except SdkError LeverageParamsL :=
  if F ≤ 0 ∨ 1 ≤ F then
    .error (.validation ("Invalid capital efficiency factor F"))
  else
    .ok ⟨F, R, loopsV2code (F : ℝ), 1 / (1 - F), tokenId⟩

/-- calculateLeverageParams of the first revision (lines 439-475): calls
validateRunway before deriving maxLeverage and the capped loop count. -/
noncomputable def calculateLeverageParamsV1 (F R termSeconds : ℚ) (tokenId : ℕ) :
    Except SdkError LeverageParamsL :=
  match validateRunway F R termSeconds with
  | .error e => .error e
  | .ok _ => .ok ⟨F, R, loopsV1 (F : ℝ), 1 / (1 - F), tokenId⟩

/-! ### Loop orchestrator (openTargetPosition, second revision, lines 1139-1181) -/

/-- Outcome of one iteration of the execution loop (the try-block at lines
1140-1167: Polymarket buy, protocol leg open, balance re-read).  On success
it yields the leg id pushed at line 1160 and the USDC balance (6-decimal
units) read at lines 1163-1164; on failure, the error thrown inside the
body. -/
inductive IterOutcome where
  | ok (legId : ℤ) (newBalance : ℚ)
  | fail (e : SdkError)

/-- The `for (let i = 0; i < loops; i++)` body of openTargetPosition
(lines 1139-1176), one oracle consultation per executed iteration; the
oracle is shifted by one at each recursive step, so `oracle 0` is always
the current iteration.  Success appends the leg id and breaks once the
balance drops under 1e6 (one dollar, line 1167); failure breaks with the
partial leg list when at least one leg exists (lines 1170-1172) and
otherwise rethrows (line 1174). -/
def openLoopAux (oracle : ℕ → IterOutcome) :
    ℕ → List ℤ → Except SdkError (List ℤ)
  | 0, acc => .ok acc
  | r + 1, acc =>
    match oracle 0 with
    | .ok legId newBalance =>
      let acc' := acc ++ [legId]
      if newBalance < 1000000 then .ok acc'
      else openLoopAux (fun i => oracle (i + 1)) r acc'
    | .fail e => if acc = [] then .error e else .ok acc

/-- The execution loop followed by the empty-position check of lines
1178-1180; a negative computed `loops` runs zero iterations, exactly as the
JavaScript `for` loop does. -/
def openTargetLoop (oracle : ℕ → IterOutcome) (loops : ℤ) :
    Except SdkError (List ℤ) :=
  match openLoopAux oracle loops.toNat [] with
  | .error e => .error e
  | .ok legs =>
    if legs = [] then .error (.protocol ("Failed to open any position legs"))
    else .ok legs

/-! ### Simulation capital-carry loop -/

/-- Carry-forward step of the first revision and of testLoopLeverage
(line 210 / test line 18): `remainingUSDC = (rem / price) * F * price`. -/
def stepTest (F price rem : ℚ) : ℚ := rem / price * F * price

/-- Carry-forward step of the second revision (line 1052):
`remainingUSDC = (rem / price) * F` — not multiplied back by the price. -/
def stepV2 (F price rem : ℚ) : ℚ := rem / price * F

/-- The simulation loop of simulatePosition (lines 1044-1054 resp. 203-213):
up to `n` iterations, each adds `rem / price` tokens to the running total,
applies the carry step to the remaining dollars, and breaks as soon as the
remainder falls under one dollar (line 1054).  Returns the pair
(totalTokens, remainingUSDC). -/
def simCarryAux (step : ℚ → ℚ) (price : ℚ) :
    ℕ → ℚ → ℚ → ℚ × ℚ
  | 0, total, rem => (total, rem)
  | n + 1, total, rem =>
    let tokensThisLoop := rem / price
    let total' := total + tokensThisLoop
    let rem' := step rem
    if rem' < 1 then (total', rem')
    else simCarryAux step price n total' rem'

/-- The simulation loop started from `capitalUSDC` dollars and an empty
token total (lines 1041-1042). -/
def simCarry (step : ℚ → ℚ) (price capital : ℚ) (loops : ℕ) : ℚ × ℚ :=
  simCarryAux step price loops 0 capital

/-- Dummy leg ids of the simulation (line 1058):
`Array.from({ length: loops }, (_, i) => BigInt(i))`; JavaScript clamps a
negative array length to zero, as `Int.toNat` does. -/
def simLegIds (loops : ℤ) : List ℤ := (List.range loops.toNat).map (fun i : ℕ => (i : ℤ))

/-! ### Metrics calculator (calculatePositionMetrics, second revision,
lines 1562-1621) -/

/-- Rate snapshot of one protocol leg as returned by protocolContract.legs
(only the fields the metrics calculator reads). -/
structure LegData where
  sets : ℚ
  F_e18 : ℚ
  rS_e18 : ℚ
  rJ_e18 : ℚ
  term : ℚ
deriving Repr

/-- Fee breakdown of a position (interface LeveragePosition, lines 847-853). -/
structure Fees where
  protocolSenior : ℚ
  protocolJunior : ℚ
  polymarketSlippage : ℚ
  gas : ℚ
  total : ℚ
deriving Repr

/-- PnL breakdown of a position (lines 854-859). -/
structure Pnl where
  atTarget : ℚ
  breakeven : ℚ
  maxProfit : ℚ
  maxLoss : ℚ
deriving Repr

/-- The returned position record (interface LeveragePosition,
lines 842-863). -/
structure LeveragePositionL where
  legIds : List ℤ
  totalExposure : ℚ
  effectiveLeverage : ℚ
  capitalDeployed : ℚ
  fees : Fees
  pnl : Pnl
  autoCloseTime : ℚ
  F : ℚ
  R : ℚ
deriving Repr

/-- Fixed-point scale 1e18 of the protocol rate snapshots. -/
def e18 : ℚ := 10 ^ 18

/-- calculatePositionMetrics (second revision, lines 1562-1621).  The
on-chain `legs(id)` lookups become the oracle `legOf`; `gasPrice` is the
wei gas price read from the provider fee data (line 1587, `0` when absent)
and `now` is `Date.now()`.  In `ℚ` a division by zero yields 0 where the
JavaScript produces NaN (empty leg list); every claim below applies the
function to a non-empty leg list or ignores the averaged fields. -/
def calculatePositionMetrics (legIds : List ℤ) (legOf : ℤ → LegData)
    (currentPrice targetPrice capitalUSDC totalTokens totalSlippage gasPrice now : ℚ) :
    LeveragePositionL :=
  let legs := legIds.map legOf
  let n : ℚ := legs.length
  let totalSets := (legs.map (fun l => l.sets)).sum
  let avgF := (legs.map (fun l => l.F_e18)).sum / n / e18
  let avgRS := (legs.map (fun l => l.rS_e18)).sum / n / e18
  let avgRJ := (legs.map (fun l => l.rJ_e18)).sum / n / e18
  let avgTerm := (legs.map (fun l => l.term)).sum / n
  let seniorInterest := totalSets * avgF * avgRS * (avgTerm / yearSeconds)
  let juniorInterest := totalSets * avgF * avgRJ * (avgTerm / yearSeconds)
  let gasUsed : ℚ := (legIds.length : ℚ) * 500000
  let gasCostUSDC := gasPrice * gasUsed / e18 * 1
  let effectiveLeverage := totalTokens / (capitalUSDC * 1000000)
  let priceMove := targetPrice - currentPrice
  let pnlAtTarget := priceMove * totalTokens / 1000000 - totalSlippage
    - seniorInterest - juniorInterest - gasCostUSDC
  let totalFees := totalSlippage + seniorInterest + juniorInterest + gasCostUSDC
  let breakeven := currentPrice + totalFees / (totalTokens / 1000000)
  { legIds := legIds
    totalExposure := totalTokens / 1000000
    effectiveLeverage := effectiveLeverage
    capitalDeployed := capitalUSDC
    fees := { protocolSenior := seniorInterest
              protocolJunior := juniorInterest
              polymarketSlippage := totalSlippage
              gas := gasCostUSDC
              total := totalFees }
    pnl := { atTarget := pnlAtTarget
             breakeven := breakeven
             maxProfit := (1 - currentPrice) * totalTokens / 1000000 - totalFees
             maxLoss := -capitalUSDC }
    autoCloseTime := now + avgTerm * 1000
    F := avgF
    R := avgRS + avgRJ }

/-- simulatePosition of the second revision (lines 1026-1080) after input
validation: derive the leverage parameters, run the estimated carry loop,
build the dummy leg-id list of length `loops`, and compute the metrics with
`totalTokens * 1e6` and zero slippage (lines 1057-1067). -/
noncomputable def simulatePositionV2 (F R currentPrice targetPrice capitalUSDC : ℚ)
    (termSeconds gasPrice now : ℚ) (tokenId : ℕ) (legOf : ℤ → LegData) :
    Except SdkError LeveragePositionL :=
  match calculateLeverageParamsV2 F R termSeconds tokenId with
  | .error e => .error e
  | .ok lp =>
    let totalTokens := (simCarry (stepV2 lp.F currentPrice) currentPrice capitalUSDC lp.loops.toNat).1
    let legIds := simLegIds lp.loops
    .ok (calculatePositionMetrics legIds legOf currentPrice targetPrice capitalUSDC
      (totalTokens * 1000000) 0 gasPrice now)

/-- Leg count of a position result as an integer; -1 on error, so that a
successful result with an empty leg list is distinguishable. -/
def legCountZ : Except SdkError LeveragePositionL → ℤ
  | .ok p => (p.legIds.length : ℤ)
  | .error _ => -1

/-! ### Order executor (buyTokensPolymarket, second revision,
lines 1330-1445) -/

/-- Does the second character list start with the first? -/
def charsStartWith : List Char → List Char → Bool
  | [], _ => true
  | _ :: _, [] => false
  | p :: ps, c :: cs => p == c && charsStartWith ps cs

/-- Does the character list contain the pattern as a contiguous run? -/
def charsContain (pat : List Char) : List Char → Bool
  | [] => charsStartWith pat []
  | c :: cs => charsStartWith pat (c :: cs) || charsContain pat cs

/-- JavaScript `String.includes`: the pattern occurs contiguously in the
string. -/
def hasSub (s pat : String) : Bool := charsContain pat.toList s.toList

/-- The non-retryable classification at line 1430:
`lastError.message.includes('No liquidity') || lastError.message.includes('Invalid')`. -/
def isNonRetryable (msg : String) : Bool :=
  hasSub msg ("No liquidity") || hasSub msg ("Invalid")

/-- The wrapping at line 1426: a PolymarketError keeps its message, any
other error is wrapped into a new PolymarketError with an
"Order failed: " cause text. -/
def wrapMsg (isPM : Bool) (msg : String) : String :=
  if isPM then msg else "Order failed: " ++ msg

/-- Outcome of the try-block of one order attempt (lines 1341-1424):
either a fill (tokensReceived, slippage) or a thrown error, tagged with
whether it already is a PolymarketError. -/
inductive AttemptOutcome where
  | ok (tokensReceived slippage : ℚ)
  | fail (isPolymarketError : Bool) (msg : String)

/-- The `for (let attempt = 0; attempt <= maxRetries; attempt++)` retry
loop of buyTokensPolymarket (lines 1340-1444).  `remaining` counts the
attempts still permitted (`maxRetries + 1 - attempt`); the result carries
the list of backoff delays slept at line 1436-1438
(`retryDelayMs * 1.5 ^ attempt`) and the number of attempts performed.
A failure whose wrapped message is non-retryable rethrows immediately
(line 1431); a retryable failure on the final attempt falls out of the
loop into the `throw lastError` at line 1444, with no backoff. -/
def buyAttemptsAux (oracle : ℕ → AttemptOutcome) (retryDelayMs : ℚ) :
    (attempt : ℕ) → (remaining : ℕ) →
    Except String (ℚ × ℚ) × List ℚ × ℕ
  | _, 0 => (.error ("Order failed"), [], 0)
  | attempt, r + 1 =>
    match oracle attempt with
    | .ok tokens slippage => (.ok (tokens, slippage), [], 1)
    | .fail isPM msg =>
      let msg' := wrapMsg isPM msg
      if isNonRetryable msg' then (.error msg', [], 1)
      else
        match r with
        | 0 => (.error msg', [], 1)
        | r' + 1 =>
          let rest := buyAttemptsAux oracle retryDelayMs (attempt + 1) (r' + 1)
          (rest.1, retryDelayMs * (3 / 2) ^ attempt :: rest.2.1, rest.2.2 + 1)

/-- buyTokensPolymarket with its `maxRetries + 1` attempt budget. -/
def buyTokensPolymarketL (oracle : ℕ → AttemptOutcome) (maxRetries : ℕ)
    (retryDelayMs : ℚ) : Except String (ℚ × ℚ) × List ℚ × ℕ :=
  buyAttemptsAux oracle retryDelayMs 0 (maxRetries + 1)

/-! ### Position closer (closePosition, second revision, lines 1637-1650) -/

/-- Chain-level outcome of closing one leg: the USDC balances observed
before and after the `close` transaction, or the balance before together
with the error the transaction threw. -/
inductive CloseResult where
  | ok (balanceBefore balanceAfter : ℚ)
  | fail (balanceBefore : ℚ) (e : SdkError)

/-- The `for (const legId of legIds)` loop of closePosition: per leg,
read the balance, close, read again, and add the delta to the running
total; the final total is divided by 1e6 (line 1649).  There is no
try/catch in closePosition, so a close failure propagates unchanged.  The
second component records which legs were attempted, in order. -/
def closePositionL (oracle : ℤ → CloseResult) :
    List ℤ → ℚ → Except SdkError ℚ × List ℤ
  | [], total => (.ok (total / 1000000), [])
  | legId :: rest, total =>
    match oracle legId with
    | .ok before after =>
      let r := closePositionL oracle rest (total + (after - before))
      (r.1, legId :: r.2)
    | .fail _ e => (.error e, [legId])

/-! ### Theorems -/

/-- Helper: for F in (0,1) the second-revision loop count
`ceil(-log(0.01) / log F)` is non-positive, because the numerator
`-log(0.01)` is positive while `log F` is negative. -/
theorem loopsV2code_nonpos {F : ℝ} (h0 : 0 < F) (h1 : F < 1) :
    loopsV2code F ≤ 0 := by
  have hlogF : Real.log F < 0 := Real.log_neg h0 h1
  have hlog001 : Real.log (0.01 : ℝ) < 0 := Real.log_neg (by norm_num) (by norm_num)
  have hx : (-Real.log (0.01 : ℝ)) / Real.log F ≤ 0 :=
    div_nonpos_of_nonneg_of_nonpos (by linarith) hlogF.le
  exact Int.ceil_le.mpr (by exact_mod_cast hx)

/-- Helper: for F in (0,1) and eps in (0,1) the spec loop count
`ceil(log eps / log F)` is at least one. -/
theorem loopsFor_pos {F eps : ℝ} (h0 : 0 < F) (h1 : F < 1)
    (he0 : 0 < eps) (he1 : eps < 1) : 1 ≤ loopsFor eps F := by
  have hlogF : Real.log F < 0 := Real.log_neg h0 h1
  have hloge : Real.log eps < 0 := Real.log_neg he0 he1
  have hx : (0 : ℝ) < Real.log eps / Real.log F :=
    div_pos_of_neg_of_neg hloge hlogF
  have h0 : (0 : ℤ) < loopsFor eps F := Int.lt_ceil.mpr (by push_cast; exact hx)
  omega

/-- Claim C1: the claim states that calculateLeverageParams computes
`loops = ceil(log(0.01) / log F)`, a positive integer, with no cap.  The
second-revision source (line 1301) instead computes
`ceil(-log(0.01) / log F)`, which is non-positive for every F in (0,1),
strictly below the claimed positive value; and the first-revision source
caps `ceil(log(0.1) / log F)` at 10.  The code therefore contradicts its
own comment "we loop until F^n < 0.01" for every valid F. -/
theorem loops_sign_bug (F : ℝ) (h0 : 0 < F) (h1 : F < 1) :
    loopsV2code F ≤ 0 ∧ 1 ≤ loopsFor (0.01) F
    ∧ loopsV2code F < loopsFor (0.01) F ∧ loopsV1 F ≤ 10 := by
  have ha := loopsV2code_nonpos h0 h1
  have hb := loopsFor_pos h0 h1 (show (0:ℝ) < 0.01 by norm_num)
    (show (0.01:ℝ) < 1 by norm_num)
  exact ⟨ha, hb, by omega, min_le_right _ _⟩

/-- Witness for C1 at F = 1/2. -/
theorem loops_sign_bug_witness :
    ((0 : ℝ) < 1/2 ∧ (1/2 : ℝ) < 1) ∧ loopsV2code (1/2) ≤ 0 :=
  ⟨⟨by norm_num, by norm_num⟩,
    (loops_sign_bug (1/2) (by norm_num) (by norm_num)).1⟩

/-- Claim C9: for F in (0,1) and eps in (0,1), the loop count
`ceil(log eps / log F)` makes the geometric multiplier reach at least
`(1 - eps)` of the theoretical maximum `1 / (1 - F)`. -/
theorem loop_count_convergence (F eps : ℝ) (hF0 : 0 < F) (hF1 : F < 1)
    (he0 : 0 < eps) (he1 : eps < 1) :
    (1 - eps) * (1 / (1 - F)) ≤ geomMult F (loopsFor eps F).toNat := by
  have hlogF : Real.log F < 0 := Real.log_neg hF0 hF1
  have hloge : Real.log eps < 0 := Real.log_neg he0 he1
  have hd : (0 : ℝ) < Real.log eps / Real.log F :=
    div_pos_of_neg_of_neg hloge hlogF
  have hL0 : (0 : ℤ) < loopsFor eps F := Int.lt_ceil.mpr (by push_cast; exact hd)
  have hLn : (((loopsFor eps F).toNat : ℝ)) = ((loopsFor eps F : ℤ) : ℝ) := by
    exact_mod_cast Int.toNat_of_nonneg hL0.le
  have hdL : Real.log eps / Real.log F ≤ (((loopsFor eps F).toNat : ℝ)) := by
    rw [hLn]; exact_mod_cast Int.le_ceil _
  have key : F ^ (loopsFor eps F).toNat ≤ eps := by
    have h1 : F ^ ((((loopsFor eps F).toNat) : ℝ)) ≤ F ^ (Real.log eps / Real.log F) :=
      Real.rpow_le_rpow_of_exponent_ge hF0 hF1.le hdL
    have h2 : F ^ (Real.log eps / Real.log F) = eps := by
      rw [Real.rpow_def_of_pos hF0, mul_comm, div_mul_cancel₀ _ (ne_of_lt hlogF)]
      exact Real.exp_log he0
    calc F ^ (loopsFor eps F).toNat
        = F ^ ((((loopsFor eps F).toNat) : ℝ)) := (Real.rpow_natCast F _).symm
      _ ≤ F ^ (Real.log eps / Real.log F) := h1
      _ = eps := h2
  have h1F : (0 : ℝ) < 1 - F := by linarith
  unfold geomMult
  rw [mul_one_div]
  exact (div_le_div_iff_of_pos_right h1F).mpr (by linarith)

/-- Witness for C9 at F = 1/2, eps = 1/2. -/
theorem loop_count_convergence_witness :
    ((0 : ℝ) < 1/2 ∧ (1/2 : ℝ) < 1) ∧
    (1 - (1/2 : ℝ)) * (1 / (1 - 1/2)) ≤ geomMult (1/2) (loopsFor (1/2) (1/2)).toNat :=
  ⟨⟨by norm_num, by norm_num⟩,
    loop_count_convergence (1/2) (1/2) (by norm_num) (by norm_num)
      (by norm_num) (by norm_num)⟩

/-- Counterexample for C3: the second-revision calculateLeverageParams
(lines 1279-1315) performs no runway check at all, so with F = 0.9,
R = 0.5 and a term of 7,000,000 seconds — which is at or above the safe
runway of 6,657,600 seconds — it still succeeds instead of rejecting. -/
theorem runway_check_missing_cex :
    resultIsError (calculateLeverageParamsV2 (9/10) (1/2) 7000000 0) = false
    ∧ safeRunway (9/10) (1/2) ≤ 7000000 ∧ (0 : ℚ) < 1/2 := by
  refine ⟨?_, by norm_num [safeRunway, yearSeconds], by norm_num⟩
  have h : ¬((9/10 : ℚ) ≤ 0 ∨ (1 : ℚ) ≤ 9/10) := by norm_num
  unfold calculateLeverageParamsV2
  rw [if_neg h]
  rfl

/-- Claim C3, amended: the runway check exists only in the first-revision
path (validateRunway, lines 417-434, called from calculateLeverageParams at
line 452) and rejects with a ValidationError — the codebase defines no
separate RunwayExceeded class.  There, with R > 0, a term at or above
`safeRunway = 0.95 * ((1-F)/(F*R)) * yearSeconds` is rejected before any
leg can be opened, a term strictly below it passes, and R = 0 never
rejects. -/
theorem runway_validation_amended (F R term : ℚ) (tokenId : ℕ) :
    (0 < R →
      (safeRunway F R ≤ term →
        validateRunway F R term = .error (.validation runwayMsg)
        ∧ calculateLeverageParamsV1 F R term tokenId = .error (.validation runwayMsg))
      ∧ (term < safeRunway F R → validateRunway F R term = .ok ()))
    ∧ (R = 0 → validateRunway F R term = .ok ()) := by
  constructor
  · intro hR
    have hR0 : ¬(R = 0) := ne_of_gt hR
    constructor
    · intro hterm
      have hv : validateRunway F R term = .error (.validation runwayMsg) := by
        unfold validateRunway
        rw [if_neg hR0, if_pos hterm]
      refine ⟨hv, ?_⟩
      unfold calculateLeverageParamsV1
      rw [hv]
    · intro hterm
      unfold validateRunway
      rw [if_neg hR0, if_neg (not_le.mpr hterm)]
  · intro hR
    unfold validateRunway
    rw [if_pos hR]

/-- Helper: a run of the execution loop in which the first m iterations
succeed with balances that never trigger the early break, and iteration m
(0-indexed) fails.  If nothing was accumulated and m = 0 the error
propagates; otherwise the loop stops with the accumulated legs followed by
the m legs just opened. -/
theorem openLoopAux_run (m : ℕ) : ∀ (oracle : ℕ → IterOutcome)
    (legFn : ℕ → ℤ) (bal : ℕ → ℚ) (e : SdkError) (r : ℕ) (acc : List ℤ),
    (∀ i, i < m → oracle i = .ok (legFn i) (bal i)) →
    (∀ i, i < m → 1000000 ≤ bal i) →
    oracle m = .fail e → m < r →
    openLoopAux oracle r acc =
      if acc = [] ∧ m = 0 then .error e
      else .ok (acc ++ (List.range m).map legFn) := by
  induction m with
  | zero =>
    intro oracle legFn bal e r acc hok hbal hfail hr
    obtain ⟨r', rfl⟩ : ∃ r', r = r' + 1 := ⟨r - 1, by omega⟩
    simp only [openLoopAux, hfail]
    by_cases hacc : acc = [] <;> simp [hacc]
  | succ m ih =>
    intro oracle legFn bal e r acc hok hbal hfail hr
    obtain ⟨r', rfl⟩ : ∃ r', r = r' + 1 := ⟨r - 1, by omega⟩
    have h0 := hok 0 (Nat.succ_pos m)
    have hb0 := hbal 0 (Nat.succ_pos m)
    simp only [openLoopAux, h0]
    rw [if_neg (not_lt.mpr hb0)]
    rw [ih (fun i => oracle (i + 1)) (fun i => legFn (i + 1)) (fun i => bal (i + 1))
      e r' (acc ++ [legFn 0])
      (fun i hi => hok (i + 1) (by omega)) (fun i hi => hbal (i + 1) (by omega))
      hfail (by omega)]
    rw [if_neg (by simp), if_neg (by simp)]
    congr 1
    rw [List.range_succ_eq_map]
    simp [List.map_map, Function.comp_def, List.append_assoc]

/-- Claim C2: the partial-failure policy of the execution loop of
openTargetPosition (lines 1139-1180).  If the 1-indexed iteration k fails
after k-1 successful legs: for k at least 2, no error surfaces and the
returned position holds exactly those k-1 legs in execution order; for
k = 1 the original error propagates; and when zero iterations run (a
non-positive loop count) the call fails with
ProtocolError "Failed to open any position legs".  The final conjunct
records that calculatePositionMetrics returns the leg-id list unchanged,
so the loop result is the position legIds field. -/
theorem open_loop_partial_failure :
    (∀ (oracle : ℕ → IterOutcome) (legFn : ℕ → ℤ) (bal : ℕ → ℚ)
        (e : SdkError) (loops : ℤ) (k : ℕ),
      (∀ i, i < k - 1 → oracle i = .ok (legFn i) (bal i)) →
      (∀ i, i < k - 1 → 1000000 ≤ bal i) →
      oracle (k - 1) = .fail e →
      (2 ≤ k → (k : ℤ) ≤ loops →
        openTargetLoop oracle loops = .ok ((List.range (k - 1)).map legFn))
      ∧ (k = 1 → 1 ≤ loops → openTargetLoop oracle loops = .error e))
    ∧ (∀ (oracle : ℕ → IterOutcome) (loops : ℤ), loops ≤ 0 →
        openTargetLoop oracle loops
          = .error (.protocol ("Failed to open any position legs")))
    ∧ (∀ (legIds : List ℤ) (legOf : ℤ → LegData) (cp tp cap tt sl gp now : ℚ),
        (calculatePositionMetrics legIds legOf cp tp cap tt sl gp now).legIds
          = legIds) := by
  refine ⟨?_, ?_, ?_⟩
  · intro oracle legFn bal e loops k hok hbal hfail
    constructor
    · intro hk2 hkloops
      have hrun := openLoopAux_run (k - 1) oracle legFn bal e loops.toNat []
        hok hbal hfail (by omega)
      unfold openTargetLoop
      rw [hrun, if_neg (by omega)]
      have hne : (List.range (k - 1)).map legFn ≠ [] := by
        simp [List.range_eq_nil]
        omega
      simp [hne]
    · intro hk1 hloops
      subst hk1
      have hrun := openLoopAux_run 0 oracle legFn bal e loops.toNat []
        (by omega) (by omega) hfail (by omega)
      unfold openTargetLoop
      rw [hrun, if_pos ⟨rfl, rfl⟩]
  · intro oracle loops hloops
    unfold openTargetLoop
    have : loops.toNat = 0 := by omega
    rw [this]
    simp [openLoopAux]
  · intro legIds legOf cp tp cap tt sl gp now
    rfl

/-- Witness for C2: three iterations permitted, iteration 1 succeeds with
leg 7 and a two-dollar balance, iteration 2 fails; the call returns the
one-leg position. -/
theorem open_loop_partial_failure_witness :
    (2 ≤ 2 ∧ (2 : ℤ) ≤ 3)
    ∧ openTargetLoop
        (fun i => if i = 0 then .ok 7 2000000 else .fail (.polymarket ("boom"))) 3
      = .ok [7] := by
  refine ⟨⟨le_refl 2, by norm_num⟩, ?_⟩
  have h := (open_loop_partial_failure.1
    (fun i => if i = 0 then .ok 7 2000000 else .fail (.polymarket ("boom")))
    (fun _ => 7) (fun _ => 2000000) (.polymarket ("boom")) 3 2
    (fun i hi => by
      have : i = 0 := by omega
      subst this
      rfl)
    (fun i hi => by norm_num)
    rfl).1 (le_refl 2) (by norm_num)
  simpa using h

/-- Witness for C3 at F = 0.9, R = 0.5, term = 7,000,000 s. -/
theorem runway_validation_amended_witness :
    ((0 : ℚ) < 1/2 ∧ safeRunway (9/10) (1/2) ≤ 7000000)
    ∧ validateRunway (9/10) (1/2) 7000000 = .error (.validation runwayMsg) :=
  ⟨⟨by norm_num, by norm_num [safeRunway, yearSeconds]⟩,
    (((runway_validation_amended (9/10) (1/2) 7000000 0).1 (by norm_num)).1
      (by norm_num [safeRunway, yearSeconds])).1⟩

/-- Claim C6: in every position built by calculatePositionMetrics the
fees.total field is exactly the sum of the four components (line 1596 and
the fee record at lines 1604-1610); in the exact rational model the
1e-6 relative tolerance of the claim is met with zero error. -/
theorem fees_total_additive (legIds : List ℤ) (legOf : ℤ → LegData)
    (cp tp cap tt sl gp now : ℚ) :
    (calculatePositionMetrics legIds legOf cp tp cap tt sl gp now).fees.total
      = (calculatePositionMetrics legIds legOf cp tp cap tt sl gp now).fees.protocolSenior
      + (calculatePositionMetrics legIds legOf cp tp cap tt sl gp now).fees.protocolJunior
      + (calculatePositionMetrics legIds legOf cp tp cap tt sl gp now).fees.polymarketSlippage
      + (calculatePositionMetrics legIds legOf cp tp cap tt sl gp now).fees.gas := by
  simp only [calculatePositionMetrics]
  ring

/-- Claim C4: invariants of the simulation capital-carry loop.  The first
three conjuncts hold of the loop with the first-revision / test carry step
(remaining strictly decreases while positive, stays non-negative, the
token total never decreases along a run, and the loop returns as soon as
the carried remainder drops below one dollar).  The final conjunct
evaluates the second-revision step (line 1052, the one the claim's cited
lines use) at F = 0.9, price = 0.40, capital = 1000: after one iteration
the remaining capital has grown from 1000 to 2250, refuting the strict
decrease for that revision — the very formula the repository's own test
(test/simulation_validation.test.ts line 18) marks as wrong. -/
theorem sim_capital_invariants :
    (∀ F price rem : ℚ, 0 < F → F < 1 → 0 < price → 0 < rem →
        stepTest F price rem < rem)
    ∧ (∀ F price rem : ℚ, 0 ≤ F → 0 ≤ rem → 0 ≤ stepTest F price rem)
    ∧ (∀ (step : ℚ → ℚ) (price : ℚ), 0 < price →
        (∀ r, 0 ≤ r → 0 ≤ step r) →
        ∀ (n : ℕ) (total rem : ℚ), 0 ≤ rem →
        total ≤ (simCarryAux step price n total rem).1)
    ∧ (∀ (step : ℚ → ℚ) (price : ℚ) (n : ℕ) (total rem : ℚ),
        step rem < 1 →
        simCarryAux step price (n + 1) total rem = (total + rem / price, step rem))
    ∧ (simCarry (stepV2 (9/10) (2/5)) (2/5) 1000 1).2 = 2250 ∧ (1000 : ℚ) < 2250 := by
  refine ⟨?_, ?_, ?_, ?_, ?_, by norm_num⟩
  · intro F price rem hF0 hF1 hp hr
    have h : stepTest F price rem = rem * F := by
      unfold stepTest
      field_simp
    rw [h]
    exact (mul_lt_iff_lt_one_right hr).mpr hF1
  · intro F price rem hF hr
    rcases eq_or_ne price 0 with h | h
    · subst h
      simp [stepTest]
    · have heq : stepTest F price rem = rem * F := by
        unfold stepTest
        field_simp
      rw [heq]
      exact mul_nonneg hr hF
  · intro step price hp hstep n
    induction n with
    | zero =>
      intro total rem _
      simp [simCarryAux]
    | succ n ih =>
      intro total rem hrem
      have htok : 0 ≤ rem / price := div_nonneg hrem hp.le
      simp only [simCarryAux]
      by_cases hb : step rem < 1
      · rw [if_pos hb]
        simpa using htok
      · rw [if_neg hb]
        calc total ≤ total + rem / price := by linarith
          _ ≤ _ := ih (total + rem / price) (step rem) (hstep rem hrem)
  · intro step price n total rem h
    simp [simCarryAux, if_pos h]
  · norm_num [simCarry, simCarryAux, stepV2]

/-- Witness for C4: the test-revision step at F = 1/2, price = 1/2,
remainder 1 strictly decreases. -/
theorem sim_capital_invariants_witness :
    ((0 : ℚ) < 1/2 ∧ (1/2 : ℚ) < 1 ∧ (0 : ℚ) < 1)
    ∧ stepTest (1/2) (1/2) 1 < 1 :=
  ⟨⟨by norm_num, by norm_num, by norm_num⟩,
    sim_capital_invariants.1 (1/2) (1/2) 1 (by norm_num) (by norm_num)
      (by norm_num) (by norm_num)⟩

/-- Claim C5, scenario A (F = 0.9, capital = 1000, price = 0.40,
10 loops).  With the carry step the test marks correct, the loop yields
between 16283 and 16284 total tokens and a value-leverage
(tokens * price / capital) between 6.51 and 6.52, exactly as the claim
expects.  With the second-revision step actually used by the cited
simulatePosition (line 1052), the loop instead yields more than a million
tokens; and even fed the correct total, the metrics field
effectiveLeverage (line 1592, token count over capital, not multiplied by
price) lands between 16 and 17, not near 6.51. -/
theorem scenario_a_eval :
    (16283 < (simCarry (stepTest (9/10) (2/5)) (2/5) 1000 10).1
      ∧ (simCarry (stepTest (9/10) (2/5)) (2/5) 1000 10).1 < 16284)
    ∧ (651/100 < (simCarry (stepTest (9/10) (2/5)) (2/5) 1000 10).1 * (2/5) / 1000
      ∧ (simCarry (stepTest (9/10) (2/5)) (2/5) 1000 10).1 * (2/5) / 1000 < 652/100)
    ∧ 1000000 < (simCarry (stepV2 (9/10) (2/5)) (2/5) 1000 10).1
    ∧ (16 < (calculatePositionMetrics (simLegIds 10) (fun _ => ⟨0, 0, 0, 0, 0⟩)
          (2/5) (11/25) 1000
          ((simCarry (stepTest (9/10) (2/5)) (2/5) 1000 10).1 * 1000000) 0 0 0).effectiveLeverage
      ∧ (calculatePositionMetrics (simLegIds 10) (fun _ => ⟨0, 0, 0, 0, 0⟩)
          (2/5) (11/25) 1000
          ((simCarry (stepTest (9/10) (2/5)) (2/5) 1000 10).1 * 1000000) 0 0 0).effectiveLeverage < 17) := by
  norm_num [simCarry, simCarryAux, stepTest, stepV2, calculatePositionMetrics,
    simLegIds, e18, List.range_succ]

/-- Helper: the dummy simulation leg-id list has length `loops.toNat`. -/
theorem simLegIds_length (loops : ℤ) : (simLegIds loops).length = loops.toNat := by
  unfold simLegIds
  rw [List.length_map, List.length_range]

/-- Counterexample for C10: run the second-revision simulatePosition at
F = 0.9 (R = 0.1, price 0.40, target 0.44, capital 1000).  A position IS
returned, but its legIds length (zero — JavaScript clamps the negative
array length) differs from the computed loops value, which the sign slip
at line 1301 makes negative. -/
theorem sim_legids_len_cex :
    resultIsError (simulatePositionV2 (9/10) (1/10) (2/5) (11/25) 1000 3600 0 0 0
        (fun _ => ⟨0, 0, 0, 0, 0⟩)) = false
    ∧ legCountZ (simulatePositionV2 (9/10) (1/10) (2/5) (11/25) 1000 3600 0 0 0
        (fun _ => ⟨0, 0, 0, 0, 0⟩)) ≠ loopsV2code ((9/10 : ℚ) : ℝ) := by
  have hcast : (((9:ℚ)/10 : ℚ) : ℝ) = 9/10 := by norm_num
  have hF0 : (0 : ℝ) < ((9/10 : ℚ) : ℝ) := by rw [hcast]; norm_num
  have hF1 : (((9/10 : ℚ) : ℝ)) < 1 := by rw [hcast]; norm_num
  have hL : loopsV2code ((9/10 : ℚ) : ℝ) ≤ -1 := by
    have hlogF : Real.log ((9/10 : ℚ) : ℝ) < 0 := Real.log_neg hF0 hF1
    have hlog : Real.log (0.01 : ℝ) ≤ Real.log ((9/10 : ℚ) : ℝ) := by
      apply Real.log_le_log (by norm_num)
      rw [hcast]; norm_num
    have hx : (-Real.log (0.01 : ℝ)) / Real.log ((9/10 : ℚ) : ℝ) ≤ ((-1 : ℤ) : ℝ) := by
      have hm1 : ((-1 : ℤ) : ℝ) = -1 := by norm_num
      rw [hm1, div_le_iff_of_neg hlogF]
      linarith
    exact Int.ceil_le.mpr hx
  have hok : calculateLeverageParamsV2 (9/10) (1/10) 3600 0
      = .ok ⟨9/10, 1/10, loopsV2code ((9/10 : ℚ) : ℝ), 1 / (1 - 9/10), 0⟩ := by
    unfold calculateLeverageParamsV2
    rw [if_neg (by norm_num)]
  have hres : simulatePositionV2 (9/10) (1/10) (2/5) (11/25) 1000 3600 0 0 0
      (fun _ => ⟨0, 0, 0, 0, 0⟩)
      = .ok (calculatePositionMetrics (simLegIds (loopsV2code ((9/10 : ℚ) : ℝ)))
          (fun _ => ⟨0, 0, 0, 0, 0⟩) (2/5) (11/25) 1000
          ((simCarry (stepV2 (9/10) (2/5)) (2/5) 1000
            (loopsV2code ((9/10 : ℚ) : ℝ)).toNat).1 * 1000000) 0 0 0) := by
    unfold simulatePositionV2
    rw [hok]
  constructor
  · rw [hres]
    rfl
  · rw [hres]
    have hlen : ((simLegIds (loopsV2code ((9/10 : ℚ) : ℝ))).length : ℤ) = 0 := by
      rw [simLegIds_length, Int.toNat_of_nonpos (by omega : loopsV2code ((9/10 : ℚ) : ℝ) ≤ 0)]
      rfl
    show ((calculatePositionMetrics _ _ _ _ _ _ _ _ _).legIds.length : ℤ) ≠ _
    have : (calculatePositionMetrics (simLegIds (loopsV2code ((9/10 : ℚ) : ℝ)))
        (fun _ => ⟨0, 0, 0, 0, 0⟩) (2/5) (11/25) 1000
        ((simCarry (stepV2 (9/10) (2/5)) (2/5) 1000
          (loopsV2code ((9/10 : ℚ) : ℝ)).toNat).1 * 1000000) 0 0 0).legIds
        = simLegIds (loopsV2code ((9/10 : ℚ) : ℝ)) := rfl
    rw [this, hlen]
    omega

/-- Claim C10, amended: the dummy legIds of the simulation have length
`loops.toNat` — the computed loops value clamped at zero, which equals the
raw value only when that is non-negative — and the simulated gas fee is
gasPrice * (legIds.length * 500000) / 1e18, independent of the capital
loop's early halt (the total-token argument does not enter either field). -/
theorem sim_legids_gas_amended (loops : ℤ) (legOf : ℤ → LegData)
    (cp tp cap tt sl gp now : ℚ) :
    (calculatePositionMetrics (simLegIds loops) legOf cp tp cap tt sl gp now).legIds.length
      = loops.toNat
    ∧ (calculatePositionMetrics (simLegIds loops) legOf cp tp cap tt sl gp now).fees.gas
      = gp * ((loops.toNat : ℚ) * 500000) / e18 := by
  constructor
  · show (simLegIds loops).length = loops.toNat
    exact simLegIds_length loops
  · show gp * (((simLegIds loops).length : ℚ) * 500000) / e18 * 1
      = gp * ((loops.toNat : ℚ) * 500000) / e18
    rw [simLegIds_length, mul_one]

/-- Step lemma: a non-retryable failure ends the loop at once. -/
theorem buyAttemptsAux_fail_nonretry (oracle : ℕ → AttemptOutcome) (delay : ℚ)
    (attempt r : ℕ) (pm : Bool) (msg : String)
    (h : oracle attempt = .fail pm msg)
    (hnr : isNonRetryable (wrapMsg pm msg) = true) :
    buyAttemptsAux oracle delay attempt (r + 1)
      = (.error (wrapMsg pm msg), [], 1) := by
  rw [buyAttemptsAux, h]
  simp [hnr]

/-- Step lemma: a retryable failure on the final permitted attempt falls
out of the loop with the wrapped error and no backoff. -/
theorem buyAttemptsAux_fail_last (oracle : ℕ → AttemptOutcome) (delay : ℚ)
    (attempt : ℕ) (pm : Bool) (msg : String)
    (h : oracle attempt = .fail pm msg)
    (hnr : isNonRetryable (wrapMsg pm msg) = false) :
    buyAttemptsAux oracle delay attempt 1
      = (.error (wrapMsg pm msg), [], 1) := by
  rw [show (1 : ℕ) = 0 + 1 from rfl, buyAttemptsAux, h]
  simp [hnr]

/-- Step lemma: a retryable failure with budget left sleeps the backoff
delay of this attempt index and continues. -/
theorem buyAttemptsAux_fail_retry (oracle : ℕ → AttemptOutcome) (delay : ℚ)
    (attempt r : ℕ) (pm : Bool) (msg : String)
    (h : oracle attempt = .fail pm msg)
    (hnr : isNonRetryable (wrapMsg pm msg) = false) :
    buyAttemptsAux oracle delay attempt (r + 2)
      = ((buyAttemptsAux oracle delay (attempt + 1) (r + 1)).1,
         delay * (3 / 2) ^ attempt :: (buyAttemptsAux oracle delay (attempt + 1) (r + 1)).2.1,
         (buyAttemptsAux oracle delay (attempt + 1) (r + 1)).2.2 + 1) := by
  rw [show r + 2 = (r + 1) + 1 from rfl, buyAttemptsAux, h]
  simp [hnr]

/-- Helper: a run of j consecutive retryable failures from `attempt`
onwards advances the retry loop j positions, prepending the j exponential
backoff delays and adding j to the attempt count. -/
theorem buyAttemptsAux_retryable_run : ∀ (j attempt r : ℕ)
    (oracle : ℕ → AttemptOutcome) (delay : ℚ)
    (pmF : ℕ → Bool) (msgF : ℕ → String),
    (∀ i, i < j → oracle (attempt + i) = .fail (pmF i) (msgF i)) →
    (∀ i, i < j → isNonRetryable (wrapMsg (pmF i) (msgF i)) = false) →
    j < r →
    buyAttemptsAux oracle delay attempt r =
      ((buyAttemptsAux oracle delay (attempt + j) (r - j)).1,
       (List.range j).map (fun i => delay * (3/2) ^ (attempt + i))
         ++ (buyAttemptsAux oracle delay (attempt + j) (r - j)).2.1,
       (buyAttemptsAux oracle delay (attempt + j) (r - j)).2.2 + j) := by
  intro j
  induction j with
  | zero =>
    intro attempt r oracle delay pmF msgF hfail hretry hr
    rw [Nat.add_zero, Nat.sub_zero]
    rfl
  | succ j ih =>
    intro attempt r oracle delay pmF msgF hfail hretry hr
    obtain ⟨r'', rfl⟩ : ∃ r'', r = r'' + 2 := ⟨r - 2, by omega⟩
    have h0 := hfail 0 (Nat.succ_pos j)
    rw [Nat.add_zero] at h0
    have hnr0 := hretry 0 (Nat.succ_pos j)
    rw [buyAttemptsAux_fail_retry oracle delay attempt r'' (pmF 0) (msgF 0) h0 hnr0]
    rw [ih (attempt + 1) (r'' + 1) oracle delay (fun i => pmF (i + 1))
      (fun i => msgF (i + 1))
      (fun i hi => by
        have hx := hfail (i + 1) (by omega)
        rwa [show attempt + 1 + i = attempt + (i + 1) by omega])
      (fun i hi => hretry (i + 1) (by omega))
      (by omega)]
    have harith : attempt + 1 + j = attempt + (j + 1) := by omega
    have hrem : r'' + 1 - j = r'' + 2 - (j + 1) := by omega
    rw [harith, hrem]
    simp only [Prod.mk.injEq]
    refine ⟨trivial, ?_, by omega⟩
    rw [List.range_succ_eq_map]
    simp only [List.map_cons, List.map_map, Function.comp_def, pow_zero,
      List.cons_append, Nat.add_zero]
    have hfun : (fun i : ℕ => delay * (3 / 2 : ℚ) ^ (attempt + 1 + i))
        = (fun x : ℕ => delay * (3 / 2 : ℚ) ^ (attempt + x.succ)) := by
      funext i
      have hx : attempt + 1 + i = attempt + i.succ := by omega
      rw [hx]
    rw [hfun]

/-- Claim C7: the retry policy of buyTokensPolymarket (lines 1340-1445).
First conjunct: after any number j of retryable failures (j within the
budget), an attempt failing with a message classified non-retryable
(`No liquidity` / `Invalid` substrings, line 1430) makes the call fail at
once with that wrapped error — exactly j + 1 attempts are performed, and
the backoff delays are only those of the earlier retryable failures, with
none after the non-retryable one, regardless of remaining budget.  Second
conjunct: when every attempt fails retryably, the call performs exactly
maxRetries + 1 attempts, sleeping delay * 1.5 ^ attempt between
consecutive attempts (and not after the last), and surfaces the last
wrapped error. -/
theorem buy_retry_policy :
    (∀ (oracle : ℕ → AttemptOutcome) (maxRetries : ℕ) (delay : ℚ) (j : ℕ)
        (pmF : ℕ → Bool) (msgF : ℕ → String) (pm : Bool) (msg : String),
      (∀ i, i < j → oracle i = .fail (pmF i) (msgF i)) →
      (∀ i, i < j → isNonRetryable (wrapMsg (pmF i) (msgF i)) = false) →
      oracle j = .fail pm msg →
      isNonRetryable (wrapMsg pm msg) = true →
      j ≤ maxRetries →
      buyTokensPolymarketL oracle maxRetries delay =
        (.error (wrapMsg pm msg),
         (List.range j).map (fun i => delay * (3/2) ^ i), j + 1))
    ∧ (∀ (oracle : ℕ → AttemptOutcome) (maxRetries : ℕ) (delay : ℚ)
        (pmF : ℕ → Bool) (msgF : ℕ → String),
      (∀ i, i ≤ maxRetries → oracle i = .fail (pmF i) (msgF i)) →
      (∀ i, i ≤ maxRetries → isNonRetryable (wrapMsg (pmF i) (msgF i)) = false) →
      buyTokensPolymarketL oracle maxRetries delay =
        (.error (wrapMsg (pmF maxRetries) (msgF maxRetries)),
         (List.range maxRetries).map (fun i => delay * (3/2) ^ i),
         maxRetries + 1)) := by
  constructor
  · intro oracle maxRetries delay j pmF msgF pm msg hfail hretry hj hnr hbudget
    unfold buyTokensPolymarketL
    rw [buyAttemptsAux_retryable_run j 0 (maxRetries + 1) oracle delay pmF msgF
      (fun i hi => by rw [Nat.zero_add]; exact hfail i hi) hretry (by omega)]
    obtain ⟨r'', hr⟩ : ∃ r'', maxRetries + 1 - j = r'' + 1 := ⟨maxRetries - j, by omega⟩
    rw [hr, Nat.zero_add]
    rw [buyAttemptsAux_fail_nonretry oracle delay j r'' pm msg hj hnr]
    refine Prod.ext rfl (Prod.ext ?_ ?_)
    · simp
    · show 1 + j = j + 1
      omega
  · intro oracle maxRetries delay pmF msgF hfail hretry
    unfold buyTokensPolymarketL
    rw [buyAttemptsAux_retryable_run maxRetries 0 (maxRetries + 1) oracle delay pmF msgF
      (fun i hi => by rw [Nat.zero_add]; exact hfail i (by omega))
      (fun i hi => hretry i (by omega)) (by omega)]
    have hr : maxRetries + 1 - maxRetries = 1 := by omega
    rw [hr, Nat.zero_add]
    have hM := hfail maxRetries (le_refl maxRetries)
    have hMr := hretry maxRetries (le_refl maxRetries)
    rw [buyAttemptsAux_fail_last oracle delay maxRetries (pmF maxRetries)
      (msgF maxRetries) hM hMr]
    refine Prod.ext rfl (Prod.ext ?_ ?_)
    · simp
    · show 1 + maxRetries = maxRetries + 1
      omega

/-- Witness for C7: an immediate no-liquidity failure with three retries
in the budget fails after exactly one attempt, with no backoff. -/
theorem buy_retry_policy_witness :
    (isNonRetryable (wrapMsg true ("No liquidity available for token 1")) = true
      ∧ 0 ≤ 3)
    ∧ buyTokensPolymarketL
        (fun _ => .fail true ("No liquidity available for token 1")) 3 2000
      = (.error ("No liquidity available for token 1"), [], 1) := by
  refine ⟨⟨by decide, by omega⟩, ?_⟩
  have h := buy_retry_policy.1
    (fun _ => .fail true ("No liquidity available for token 1")) 3 2000 0
    (fun _ => true) (fun _ => "No liquidity available for token 1")
    true ("No liquidity available for token 1")
    (fun i hi => absurd hi (by omega)) (fun i hi => absurd hi (by omega))
    rfl (by decide) (by omega)
  simpa using h

/-- Claim C8: closePosition (lines 1637-1650) walks the given leg ids in
input order, accumulating the post-close minus pre-close balance deltas
and dividing the aggregate by 1e6; a failing close aborts the loop, so
later legs are not attempted — but the error propagates unchanged, NOT
wrapped into a ProtocolError (the method body has no try/catch, although
its own doc comment at line 1629 declares `@throws ProtocolError`).
Concretely: closing [1, 2, 3] where leg 1 nets three dollars and leg 2
reverts with a raw error attempts exactly [1, 2] and surfaces the raw
non-Protocol error; closing [1] alone returns 3. -/
theorem close_position_eval :
    closePositionL
      (fun legId =>
        if legId = 1 then .ok 5000000 8000000
        else if legId = 2 then .fail 8000000 (.other ("execution reverted"))
        else .ok 0 0)
      [1, 2, 3] 0
      = (.error (.other ("execution reverted")), [1, 2])
    ∧ (SdkError.other ("execution reverted")).isProtocol = false
    ∧ closePositionL
        (fun legId =>
          if legId = 1 then .ok 5000000 8000000
          else if legId = 2 then .fail 8000000 (.other ("execution reverted"))
          else .ok 0 0)
        [1] 0
      = (.ok 3, [1]) := by
  refine ⟨?_, rfl, ?_⟩
  · norm_num [closePositionL]
  · norm_num [closePositionL]

end ForecastSDK
